import Mathlib

/-!
Shallow embedding of the ESP32 smart AC controller (`src/main.cpp`):
EEPROM signal store, learn-mode capture pipeline, MQTT command dispatch,
button debouncer and the threshold auto-control policy, together with
theorems checking the natural-language specification against them.

Machine integers are embedded as `Nat` with explicit truncation where the
C types force it (`uint8_t` store cells as `% 256`, `uint16_t` values as
`% 65536`).  `millis()` timestamps are embedded as monotone `Nat` values.
`float` sensor values are embedded as `Option ℚ`: `none` models a NaN
reading (the DHT driver returns NaN on failure), and every IEEE comparison
against NaN is false, which the comparison helpers reproduce.
-/

set_option maxRecDepth 8192

namespace SmartAC

/-- `#define EEPROM_SIZE 1200`, passed to `EEPROM.begin`. -/
def EEPROM_SIZE : Nat := 1200

/-- `#define COOL_ADDR 0`. -/
def COOL_ADDR : Nat := 0

/-- `#define FAN_ADDR 400`. -/
def FAN_ADDR : Nat := 400

/-- `#define OFF_ADDR 800`. -/
def OFF_ADDR : Nat := 800

/-- `const unsigned long debounceDelay = 200;` (milliseconds). -/
def debounceDelay : Nat := 200

/-- The EEPROM byte buffer, a total map from addresses to cell contents.
Cells are `uint8_t`, so every observation goes through `% 256`. -/
def Store : Type := Nat → Nat

/-- `EEPROM.write(address, value)` of the arduino-esp32 EEPROM class:
an out-of-range address is silently ignored, otherwise the cell receives
the value truncated to the `uint8_t` parameter type. -/
def eepromWrite (s : Store) (a v : Nat) : Store :=
  fun x => if a < EEPROM_SIZE ∧ x = a then v % 256 else s x

/-- `EEPROM.read(address)`: out-of-range reads return 0, in-range reads
return the byte stored in the cell. -/
def eepromRead (s : Store) (a : Nat) : Nat :=
  if a < EEPROM_SIZE then s a % 256 else 0

/-- The loop body of `saveIRData`:
`EEPROM.write(addr + 2 + i*2, rawbuf[i] >> 8); EEPROM.write(addr + 3 + i*2, rawbuf[i] & 0xFF);`
for `i` counting up from the given start index.  `rawbuf` holds `uint16_t`
durations, hence the `% 65536` view of each element. -/
def writePulses (s : Store) (addr : Nat) : List Nat → Nat → Store
  | [], _ => s
  | v :: rest, i =>
      writePulses
        (eepromWrite (eepromWrite s (addr + 2 + i * 2) ((v % 65536) >>> 8))
          (addr + 3 + i * 2) ((v % 65536) &&& 255))
        addr rest (i + 1)

/-- `saveIRData(addr, rawbuf, len)`: writes the 2-byte big-endian length
prefix (`len >> 8`, `len & 0xFF`), then the big-endian duration pairs.
`len` is the `uint16_t` length of the captured buffer, so the loop runs
`rawbuf.length % 65536` times over the buffer. -/
def saveIRData (s : Store) (addr : Nat) (rawbuf : List Nat) : Store :=
  writePulses
    (eepromWrite (eepromWrite s addr ((rawbuf.length % 65536) >>> 8))
      (addr + 1) ((rawbuf.length % 65536) &&& 255))
    addr (rawbuf.take (rawbuf.length % 65536)) 0

/-- `(EEPROM.read(a) << 8) | EEPROM.read(a + 1)`: big-endian 16-bit read. -/
def readU16 (s : Store) (a : Nat) : Nat :=
  (eepromRead s a <<< 8) ||| eepromRead s (a + 1)

/-- The read phase of `sendIRData`: recover `len` from the prefix, then the
`len` stored durations `raw[i] = (EEPROM.read(addr+2+i*2) << 8) | EEPROM.read(addr+3+i*2)`. -/
def readSignal (s : Store) (addr : Nat) : List Nat :=
  (List.range (readU16 s addr)).map (fun i => readU16 s (addr + 2 + i * 2))

/-- One invocation of the transmit capability,
`irsend.sendRaw(raw, len, 38)`. -/
structure TransmitCall where
  data : List Nat
  freq : Nat
deriving DecidableEq

/-- `sendIRData(addr)`: reads the slot and unconditionally hands the
recovered buffer to `irsend.sendRaw` at 38 kHz.  The source contains no
emptiness check of any kind: whatever the length prefix says is used. -/
def sendIRData (s : Store) (addr : Nat) : TransmitCall :=
  { data := readSignal s addr, freq := 38 }

/-- The shared control state: `mode` (`true` = AUTO, `false` = LEARN, the
global `bool mode`), the static learning cursor `step` of `learnMode`, and
the EEPROM store. -/
structure SysState where
  mode : Bool
  step : Nat
  store : Store

/-- The trailing log of `sendIRData`: `"Sent IR from EEPROM @%d"`. -/
def sentLog (addr : Nat) : String := "Sent IR from EEPROM @" ++ toString addr

/-- Result of one `mqttCallback` invocation: the updated control state,
the transmit-capability calls made, and the `ac1/log` publishes in order. -/
structure CmdOut where
  newState : SysState
  transmits : List TransmitCall
  logs : List String

/-- `mqttCallback` on a received payload: always echoes the message to
`ac1/log`, then dispatches on `strcmp`: `"cool"`/`"fan"`/`"off"` invoke
`sendIRData` immediately, `"auto"` sets `mode = true`, `"learn"` sets
`mode = false`, anything else is a no-op.  The static `step` of
`learnMode` is not in scope here and is never touched. -/
def applyCommand (st : SysState) (msg : String) : CmdOut :=
  if msg = "cool" then
    ⟨st, [sendIRData st.store COOL_ADDR], [msg, sentLog COOL_ADDR]⟩
  else if msg = "fan" then
    ⟨st, [sendIRData st.store FAN_ADDR], [msg, sentLog FAN_ADDR]⟩
  else if msg = "off" then
    ⟨st, [sendIRData st.store OFF_ADDR], [msg, sentLog OFF_ADDR]⟩
  else if msg = "auto" then
    ⟨{ st with mode := true }, [], [msg]⟩
  else if msg = "learn" then
    ⟨{ st with mode := false }, [], [msg]⟩
  else
    ⟨st, [], [msg]⟩

/-- One pass of `learnMode()`: `capture = some buf` models
`irrecv.decode(&results)` returning a frame whose corrected raw buffer is
`buf`; `none` models no frame available (the function returns untouched).
On a capture: save to `COOL_ADDR`/`FAN_ADDR`/`OFF_ADDR` according to the
static `step`, then `if (++step >= 3) { mode = true; step = 0; }`. -/
def learnStep (st : SysState) (capture : Option (List Nat)) : SysState :=
  match capture with
  | none => st
  | some buf =>
      let store1 :=
        if st.step = 0 then saveIRData st.store COOL_ADDR buf
        else if st.step = 1 then saveIRData st.store FAN_ADDR buf
        else if st.step = 2 then saveIRData st.store OFF_ADDR buf
        else st.store
      if st.step + 1 ≥ 3 then ⟨true, 0, store1⟩
      else ⟨st.mode, st.step + 1, store1⟩

/-- State of the button-debounce block in `loop()`: the statics
`lastButtonState` (`true` = HIGH) and `lastDebounceTime`, plus the global
`mode` it toggles. -/
structure DebounceState where
  lastButtonState : Bool
  lastDebounceTime : Nat
  mode : Bool

/-- One iteration of the debounce block of `loop()` at time `now`
(both `millis()` calls of the block happen back to back within one
iteration and are embedded as the same instant):
`if (currentState != lastButtonState) lastDebounceTime = millis();`
`if ((millis() - lastDebounceTime) > debounceDelay) { if (lastButtonState == HIGH && currentState == LOW) mode = !mode; }`
`lastButtonState = currentState;`
Returns the new state and whether the mode was toggled. -/
def debounceStep (st : DebounceState) (now : Nat) (currentState : Bool) :
    DebounceState × Bool :=
  let ldt := if currentState != st.lastButtonState then now else st.lastDebounceTime
  let toggled := decide (now - ldt > debounceDelay) && st.lastButtonState && !currentState
  (⟨currentState, ldt, if toggled then !st.mode else st.mode⟩, toggled)

/-- Total number of mode toggles produced by feeding a timed sample
sequence through the debounce block. -/
def runDebounce (st : DebounceState) : List (Nat × Bool) → Nat
  | [] => 0
  | (t, sample) :: rest =>
      let r := debounceStep st t sample
      (if r.2 then 1 else 0) + runDebounce r.1 rest

/-- `float TEMP_HIGH` / `float TEMP_LOW`, embedded as rationals. -/
structure ThresholdConfig where
  tempHigh : ℚ
  tempLow : ℚ

/-- `temp >= TEMP_HIGH` on floats: false whenever `temp` is NaN. -/
def floatGe (x : Option ℚ) (y : ℚ) : Bool :=
  match x with
  | none => false
  | some v => decide (y ≤ v)

/-- `temp <= TEMP_LOW` on floats: false whenever `temp` is NaN. -/
def floatLe (x : Option ℚ) (y : ℚ) : Bool :=
  match x with
  | none => false
  | some v => decide (v ≤ y)

/-- `dht.readTemperature()` / `dht.readHumidity()` results; `none` = NaN. -/
structure SensorReading where
  temp : Option ℚ
  hum : Option ℚ

/-- Observable outbound events of one `autoControlMode()` execution, in
program order: `ac1/log` publishes, the `ac1/status` publish (carrying the
two formatted numeric fields), and transmit-capability invocations. -/
inductive AcEvent where
  | logPub (msg : String)
  | statusPub (temp hum : Option ℚ)
  | transmit (t : TransmitCall)
deriving DecidableEq

/-- Recogniser for transmit events. -/
def isTransmitEvent : AcEvent → Bool
  | AcEvent.transmit _ => true
  | _ => false

/-- Result of one `autoControlMode()` call: emitted events in program
order and the updated static `lastUpdate`. -/
structure AutoOut where
  events : List AcEvent
  lastUpdate : Nat
deriving DecidableEq

/-- The `"Temp: ..."` log line.  In the source this `snprintf` passes the
format string `"Temp: %.1fC, Hum: %.1f%%, temp, hum"` with no variadic
arguments at all (the arguments were swallowed into the format string), so
the published text is this garbled constant. -/
def tempLogStr : String := "Temp: %.1fC, Hum: %.1f%%, temp, hum"

/-- `autoControlMode()`: hold-off of 5000 ms on the static `lastUpdate`;
then read the sensors, publish the log line and the `ac1/status` record
(unconditionally - the source never tests the reading for NaN), then
`if (temp >= TEMP_HIGH) sendIRData(COOL_ADDR); else if (temp <= TEMP_LOW) sendIRData(FAN_ADDR);`. -/
def autoControlMode (store : Store) (cfg : ThresholdConfig)
    (lastUpdate now : Nat) (r : SensorReading) : AutoOut :=
  if now - lastUpdate < 5000 then ⟨[], lastUpdate⟩
  else
    let head : List AcEvent := [AcEvent.logPub tempLogStr, AcEvent.statusPub r.temp r.hum]
    if floatGe r.temp cfg.tempHigh then
      ⟨head ++ [AcEvent.logPub "Sending COOL signal.",
        AcEvent.transmit (sendIRData store COOL_ADDR), AcEvent.logPub (sentLog COOL_ADDR)], now⟩
    else if floatLe r.temp cfg.tempLow then
      ⟨head ++ [AcEvent.logPub "Sending FAN signal.",
        AcEvent.transmit (sendIRData store FAN_ADDR), AcEvent.logPub (sentLog FAN_ADDR)], now⟩
    else
      ⟨head, now⟩

/-- Number of transmit-capability invocations among the emitted events. -/
def countTransmits (out : AutoOut) : Nat :=
  (out.events.filter isTransmitEvent).length

/-- An all-zero store (zero-filled EEPROM partition). -/
def zeroStore : Store := fun _ => 0

/-- A never-written flash partition: every byte reads `0xFF`. -/
def freshStore : Store := fun _ => 255

/-! ### Store lemmas -/

theorem eepromWrite_apply (s : Store) (a v x : Nat) :
    eepromWrite s a v x = if a < EEPROM_SIZE ∧ x = a then v % 256 else s x := rfl

/-- `writePulses` touches only the cells of the pulse pairs it writes:
every address below the first pair or at/after the end of the last pair is
left unchanged. -/
theorem writePulses_frame (s : Store) (addr : Nat) (buf : List Nat) (i x : Nat)
    (hx : x < addr + 2 + i * 2 ∨ addr + 2 + (i + buf.length) * 2 ≤ x) :
    writePulses s addr buf i x = s x := by
  induction buf generalizing s i with
  | nil => rfl
  | cons v rest ih =>
      have hlen : (v :: rest).length = rest.length + 1 := rfl
      rw [hlen] at hx
      rw [writePulses, ih _ _ (by omega)]
      rw [eepromWrite_apply, eepromWrite_apply, if_neg, if_neg]
      · rintro ⟨-, h⟩; omega
      · rintro ⟨-, h⟩; omega

/-- The high byte of pulse `j` ends up at cell `addr + 2 + j*2` (provided
that cell is inside the EEPROM region). -/
theorem writePulses_point_hi (s : Store) (addr : Nat) (buf : List Nat) (i j : Nat)
    (hj : j < buf.length) (hrange : addr + 2 + (i + j) * 2 < EEPROM_SIZE) :
    writePulses s addr buf i (addr + 2 + (i + j) * 2) =
      ((buf.get ⟨j, hj⟩ % 65536) >>> 8) % 256 := by
  induction buf generalizing s i j with
  | nil => simp at hj
  | cons v rest ih =>
      cases j with
      | zero =>
          rw [writePulses, writePulses_frame _ _ _ _ _ (Or.inl (by omega))]
          rw [eepromWrite_apply, if_neg (by rintro ⟨-, h⟩; omega),
            eepromWrite_apply, if_pos ⟨hrange, rfl⟩]
          rfl
      | succ k =>
          have e : addr + 2 + (i + (k + 1)) * 2 = addr + 2 + ((i + 1) + k) * 2 := by ring
          have hk : k < rest.length := by simpa using hj
          rw [writePulses, e, ih _ _ _ hk (by omega)]
          simp [List.get]

/-- The low byte of pulse `j` ends up at cell `addr + 3 + j*2`. -/
theorem writePulses_point_lo (s : Store) (addr : Nat) (buf : List Nat) (i j : Nat)
    (hj : j < buf.length) (hrange : addr + 3 + (i + j) * 2 < EEPROM_SIZE) :
    writePulses s addr buf i (addr + 3 + (i + j) * 2) =
      ((buf.get ⟨j, hj⟩ % 65536) &&& 255) % 256 := by
  induction buf generalizing s i j with
  | nil => simp at hj
  | cons v rest ih =>
      cases j with
      | zero =>
          rw [writePulses, writePulses_frame _ _ _ _ _ (Or.inl (by omega))]
          rw [eepromWrite_apply, if_pos ⟨hrange, rfl⟩]
          rfl
      | succ k =>
          have e : addr + 3 + (i + (k + 1)) * 2 = addr + 3 + ((i + 1) + k) * 2 := by ring
          have hk : k < rest.length := by simpa using hj
          rw [writePulses, e, ih _ _ _ hk (by omega)]
          simp [List.get]

/-- A big-endian 16-bit read is the arithmetic combination of its two
bytes when both cells are inside the EEPROM region. -/
theorem readU16_combine (s : Store) (a : Nat) (ha : a + 1 < EEPROM_SIZE) :
    readU16 s a = 256 * (s a % 256) + s (a + 1) % 256 := by
  unfold readU16 eepromRead
  rw [if_pos (by omega), if_pos ha, Nat.shiftLeft_eq]
  have h2 : s (a + 1) % 256 < 2 ^ 8 := by
    have := Nat.mod_lt (s (a + 1)) (y := 256) (by omega)
    simpa using this
  calc (s a % 256) * 2 ^ 8 ||| s (a + 1) % 256
      = 2 ^ 8 * (s a % 256) ||| s (a + 1) % 256 := by rw [Nat.mul_comm]
    _ = 2 ^ 8 * (s a % 256) + s (a + 1) % 256 := (Nat.mul_add_lt_is_or h2 _).symm
    _ = 256 * (s a % 256) + s (a + 1) % 256 := by norm_num

/-- Reading back the length prefix of a saved signal recovers the buffer
length, as long as the prefix cells are inside the EEPROM region. -/
theorem saveIRData_len (s : Store) (addr : Nat) (buf : List Nat)
    (ha : addr + 1 < EEPROM_SIZE) (hlen : buf.length < 65536) :
    readU16 (saveIRData s addr buf) addr = buf.length := by
  unfold saveIRData
  rw [Nat.mod_eq_of_lt hlen, List.take_length]
  rw [readU16_combine _ _ ha]
  rw [writePulses_frame _ _ _ _ _ (Or.inl (by omega)),
    writePulses_frame _ _ _ _ _ (Or.inl (by omega))]
  have hA : (eepromWrite (eepromWrite s addr (buf.length >>> 8)) (addr + 1)
      (buf.length &&& 255)) addr = (buf.length >>> 8) % 256 := by
    rw [eepromWrite_apply, if_neg (by rintro ⟨-, h⟩; omega),
      eepromWrite_apply, if_pos ⟨by omega, rfl⟩]
  have hB : (eepromWrite (eepromWrite s addr (buf.length >>> 8)) (addr + 1)
      (buf.length &&& 255)) (addr + 1) = (buf.length &&& 255) % 256 := by
    rw [eepromWrite_apply, if_pos ⟨ha, rfl⟩]
  rw [hA, hB]
  have hs : buf.length >>> 8 = buf.length / 256 := by
    rw [Nat.shiftRight_eq_div_pow]
  have hand : buf.length &&& 255 = buf.length % 256 := by
    have h := Nat.and_pow_two_sub_one_eq_mod buf.length 8
    norm_num at h
    exact h
  rw [hs, hand]
  omega

/-- Reading back pulse `j` of a saved signal recovers the `uint16_t` view
of the original duration. -/
theorem saveIRData_value (s : Store) (addr : Nat) (buf : List Nat) (j : Nat)
    (hj : j < buf.length) (hfit : addr + 2 + 2 * buf.length ≤ EEPROM_SIZE)
    (hlen : buf.length < 65536) :
    readU16 (saveIRData s addr buf) (addr + 2 + j * 2) = buf.get ⟨j, hj⟩ % 65536 := by
  unfold saveIRData
  rw [Nat.mod_eq_of_lt hlen, List.take_length]
  rw [readU16_combine _ _ (by omega)]
  have hhi := writePulses_point_hi
    (eepromWrite (eepromWrite s addr (buf.length >>> 8)) (addr + 1) (buf.length &&& 255))
    addr buf 0 j hj (by omega)
  have hlo := writePulses_point_lo
    (eepromWrite (eepromWrite s addr (buf.length >>> 8)) (addr + 1) (buf.length &&& 255))
    addr buf 0 j hj (by omega)
  rw [Nat.zero_add] at hhi hlo
  rw [hhi]
  have e : addr + 2 + j * 2 + 1 = addr + 3 + j * 2 := by ring
  rw [e, hlo]
  set v := buf.get ⟨j, hj⟩ with hv
  have hs : (v % 65536) >>> 8 = v % 65536 / 256 := by
    rw [Nat.shiftRight_eq_div_pow]
  have hand : v % 65536 &&& 255 = v % 256 := by
    have h := Nat.and_pow_two_sub_one_eq_mod (v % 65536) 8
    norm_num at h
    exact h
  rw [hs, hand]
  omega

/-- Round trip: saving a pulse train whose encoding fits inside the EEPROM
region and reading the slot back yields the `uint16_t` view of the train. -/
theorem saveIRData_roundTrip (s : Store) (addr : Nat) (buf : List Nat)
    (hfit : addr + 2 + 2 * buf.length ≤ EEPROM_SIZE) :
    readSignal (saveIRData s addr buf) addr = buf.map (fun v => v % 65536) := by
  have hlen : buf.length < 65536 := by
    have : EEPROM_SIZE = 1200 := rfl
    omega
  unfold readSignal
  rw [saveIRData_len _ _ _ (by omega) hlen]
  apply List.ext_getElem
  · simp
  · intro i h1 h2
    simp only [List.getElem_map, List.getElem_range]
    have hi : i < buf.length := by simpa using h1
    rw [saveIRData_value s addr buf i hi hfit hlen]
    simp [List.get_eq_getElem]

/-- Frame property of `saveIRData`: only the cells of the half-open range
`[addr, addr + 2 + 2*len)` are written. -/
theorem saveIRData_frame (s : Store) (addr : Nat) (buf : List Nat) (x : Nat)
    (hlen : buf.length < 65536)
    (hx : x < addr ∨ addr + 2 + 2 * buf.length ≤ x) :
    saveIRData s addr buf x = s x := by
  unfold saveIRData
  rw [Nat.mod_eq_of_lt hlen, List.take_length]
  rw [writePulses_frame _ _ _ _ _ (by omega)]
  rw [eepromWrite_apply, if_neg (by rintro ⟨-, h⟩; omega),
    eepromWrite_apply, if_neg (by rintro ⟨-, h⟩; omega)]

/-- If two stores agree below a bound that covers everything `readSignal`
dereferences, they decode the same signal. -/
theorem readSignal_agree (s t : Store) (addr B : Nat)
    (hagree : ∀ x, x < B → t x = s x)
    (hB : addr + 2 + 2 * readU16 s addr ≤ B) :
    readSignal t addr = readSignal s addr := by
  have hlen : readU16 t addr = readU16 s addr := by
    unfold readU16 eepromRead
    rw [hagree addr (by omega), hagree (addr + 1) (by omega)]
  unfold readSignal
  rw [hlen]
  apply List.map_congr_left
  intro i hi
  have hilt : i < readU16 s addr := List.mem_range.mp hi
  unfold readU16 eepromRead
  rw [hagree (addr + 2 + i * 2) (by omega), hagree (addr + 2 + i * 2 + 1) (by omega)]

/-! ### Claim theorems -/

/-- C10: `saveIRData(addr, rawbuf, len)` mutates only the byte range
`[addr, addr + 2 + 2*len)`.  Consequently a pulse train of length at most
199 leaves every cell 400 or more bytes past the slot base (i.e. the other
slots' regions) unchanged, while a train of length exactly 200 deposits
the high byte of its last duration at `addr + 400`, the first cell of the
next slot's region. -/
theorem save_frame_property (s : Store) (addr : Nat) (buf : List Nat)
    (hlen : buf.length < 65536) :
    (∀ x, (x < addr ∨ addr + 2 + 2 * buf.length ≤ x) → saveIRData s addr buf x = s x) ∧
    (buf.length ≤ 199 → ∀ x, addr + 400 ≤ x → saveIRData s addr buf x = s x) ∧
    (buf.length = 200 → addr + 400 < EEPROM_SIZE →
      saveIRData s addr buf (addr + 400) = ((buf.getD 199 0 % 65536) >>> 8) % 256) := by
  refine ⟨fun x hx => saveIRData_frame s addr buf x hlen hx,
    fun h199 x hx => saveIRData_frame s addr buf x hlen (Or.inr (by omega)),
    fun h200 hr => ?_⟩
  unfold saveIRData
  rw [Nat.mod_eq_of_lt hlen, List.take_length]
  have h199 : (199 : Nat) < buf.length := by omega
  have hpt := writePulses_point_hi
    (eepromWrite (eepromWrite s addr (buf.length >>> 8)) (addr + 1) (buf.length &&& 255))
    addr buf 0 199 h199 (by omega)
  have e : addr + 2 + (0 + 199) * 2 = addr + 400 := by ring
  rw [e] at hpt
  rw [hpt]
  have hg : buf.get ⟨199, h199⟩ = buf.getD 199 0 := by
    rw [List.getD_eq_getElem _ _ h199, List.get_eq_getElem]
  rw [hg]

/-- C10 witness: saving a 200-duration train to the FAN slot leaves cell
399 untouched but deposits a byte at cell 800, the OFF slot's base. -/
theorem save_frame_property_wit :
    saveIRData zeroStore 400 (List.replicate 200 560) 399 = zeroStore 399 ∧
    saveIRData zeroStore 400 (List.replicate 200 560) 800 =
      (((List.replicate 200 560 : List Nat).getD 199 0 % 65536) >>> 8) % 256 := by
  have hl : (List.replicate 200 560 : List Nat).length = 200 := by
    rw [List.length_replicate]
  have h := save_frame_property zeroStore 400 (List.replicate 200 560) (by rw [hl]; norm_num)
  refine ⟨h.1 399 (Or.inl (by norm_num)), ?_⟩
  exact h.2.2 hl (by decide)

/-- C6 counterexample: the round-trip claim quantified over *every* raw
pulse train fails at the OFF slot: a 200-duration train needs 402 bytes,
its last pair lands at cells 1200-1201, beyond `EEPROM_SIZE`, so the write
is silently dropped and the read-back differs from the original. -/
theorem roundtrip_overflow_cex :
    readSignal (saveIRData zeroStore OFF_ADDR (List.replicate 200 560)) OFF_ADDR ≠
      List.replicate 200 560 := by
  intro h
  have hl : (List.replicate 200 560 : List Nat).length = 200 := by
    rw [List.length_replicate]
  have hlen : readU16 (saveIRData zeroStore OFF_ADDR (List.replicate 200 560)) OFF_ADDR = 200 := by
    rw [saveIRData_len _ _ _ (by decide) (by rw [hl]; norm_num), hl]
  have hget := congrArg (fun l => List.getD l 199 0) h
  simp only [readSignal, hlen] at hget
  have h1 : ((List.range 200).map (fun i =>
      readU16 (saveIRData zeroStore OFF_ADDR (List.replicate 200 560))
        (OFF_ADDR + 2 + i * 2))).getD 199 0 =
      readU16 (saveIRData zeroStore OFF_ADDR (List.replicate 200 560))
        (OFF_ADDR + 2 + 199 * 2) := by
    rw [List.getD_eq_getElem _ _ (by simp)]
    simp
  have he : OFF_ADDR + 2 + 199 * 2 = 1200 := by norm_num [OFF_ADDR]
  have h2 : readU16 (saveIRData zeroStore OFF_ADDR (List.replicate 200 560))
      (OFF_ADDR + 2 + 199 * 2) = 0 := by
    rw [he]
    unfold readU16 eepromRead
    rw [if_neg (by decide), if_neg (by decide)]
    decide
  have h3 : (List.replicate 200 560 : List Nat).getD 199 0 = 560 := by
    rw [List.getD_eq_getElem _ _ (by rw [hl]; norm_num)]
    simp
  rw [h1, h2, h3] at hget
  exact absurd hget (by norm_num)

/-- Round trip for trains of in-range 16-bit durations whose encoding
fits the store. -/
theorem saveIRData_readback (s : Store) (addr : Nat) (buf : List Nat)
    (hfit : addr + 2 + 2 * buf.length ≤ EEPROM_SIZE)
    (hvals : ∀ v ∈ buf, v < 65536) :
    readSignal (saveIRData s addr buf) addr = buf := by
  rw [saveIRData_roundTrip s addr buf hfit]
  conv_rhs => rw [← List.map_id buf]
  exact List.map_congr_left fun v hv => Nat.mod_eq_of_lt (hvals v hv)

/-- C6 (amended): for every slot address and every 16-bit pulse train
whose encoded footprint fits inside the EEPROM region
(`addr + 2 + 2*len ≤ 1200`), saving and reading back yields a sequence
equal to the original - same length, same durations, same order. -/
theorem roundtrip_within_region (s : Store) (addr : Nat) (buf : List Nat)
    (_haddr : addr = COOL_ADDR ∨ addr = FAN_ADDR ∨ addr = OFF_ADDR)
    (hfit : addr + 2 + 2 * buf.length ≤ EEPROM_SIZE)
    (hvals : ∀ v ∈ buf, v < 65536) :
    readSignal (saveIRData s addr buf) addr = buf :=
  saveIRData_readback s addr buf hfit hvals

/-- C6 witness (Scenario A): the train `[9000, 4500, 560, 560, 560, 1690]`
round-trips through the COOL slot unchanged. -/
theorem roundtrip_within_region_wit :
    readSignal (saveIRData zeroStore COOL_ADDR [9000, 4500, 560, 560, 560, 1690]) COOL_ADDR =
      [9000, 4500, 560, 560, 560, 1690] :=
  roundtrip_within_region zeroStore COOL_ADDR _ (Or.inl rfl) (by decide) (by decide)

/-- C2 (code bug): a replay request on a slot that was never written does
not fail with an `EmptySlot` error - no such check or diagnostic exists in
`sendIRData`.  On a never-written flash region every byte reads `0xFF`, so
the length prefix decodes to 65535 and the transmit capability is invoked
with 65535 garbage durations (in the C source this also allocates a
65535-entry VLA on the stack). -/
theorem replay_empty_slot_drives_transmit :
    (applyCommand ⟨true, 0, freshStore⟩ "cool").transmits =
      [sendIRData freshStore COOL_ADDR] ∧
    (readSignal freshStore COOL_ADDR).length = 65535 := by
  refine ⟨rfl, ?_⟩
  unfold readSignal
  rw [List.length_map, List.length_range]
  decide

/-- C8: the replay commands `"cool"`, `"fan"`, `"off"` invoke the transmit
path immediately and leave the whole control state - mode, learning cursor
and store - unchanged, whatever the current mode is. -/
theorem replay_command_preserves_state (st : SysState) :
    applyCommand st "cool" =
      ⟨st, [sendIRData st.store COOL_ADDR], ["cool", sentLog COOL_ADDR]⟩ ∧
    applyCommand st "fan" =
      ⟨st, [sendIRData st.store FAN_ADDR], ["fan", sentLog FAN_ADDR]⟩ ∧
    applyCommand st "off" =
      ⟨st, [sendIRData st.store OFF_ADDR], ["off", sentLog OFF_ADDR]⟩ :=
  ⟨rfl, rfl, rfl⟩

/-- C1 counterexample: a concrete reachable trace ending in AUTO with the
learning cursor at 1, not 0.  Start in AUTO, receive `"learn"`, accept one
capture (cursor advances to 1), then receive `"auto"`: the command sets
`mode = true` but `mqttCallback` never touches the static `step` of
`learnMode`, so AUTO is entered with the cursor still at 1. -/
theorem auto_mode_cursor_nonzero_cex :
    ((applyCommand
        (learnStep ((applyCommand ⟨true, 0, zeroStore⟩ "learn").newState) (some [100]))
        "auto").newState).mode = true ∧
    ((applyCommand
        (learnStep ((applyCommand ⟨true, 0, zeroStore⟩ "learn").newState) (some [100]))
        "auto").newState).step = 1 := by
  constructor <;> rfl

/-- C1 (amended): only completion of a learning pass resets the cursor:
a LEARN-to-AUTO transition performed by `learnMode` itself always leaves
the cursor at 0, whereas `mqttCallback` (the `"auto"`/`"learn"` commands
and every other payload) never changes the cursor at all, so a SetMode
transition into AUTO keeps whatever cursor value was current and a later
LEARN entry resumes mid-sequence (and the button toggle never fires, see
the debouncer theorem). -/
theorem cursor_reset_only_on_pass_completion :
    (∀ st cap, st.mode = false → (learnStep st cap).mode = true →
      (learnStep st cap).step = 0) ∧
    (∀ st msg, ((applyCommand st msg).newState).step = st.step) := by
  constructor
  · intro st cap hlearn hauto
    match cap with
    | none => rw [learnStep] at hauto; rw [hlearn] at hauto; exact absurd hauto (by simp)
    | some buf =>
        rw [learnStep] at hauto ⊢
        by_cases h3 : st.step + 1 ≥ 3
        · simp only [if_pos h3]
        · simp only [if_neg h3] at hauto
          rw [hlearn] at hauto
          exact absurd hauto (by simp)
  · intro st msg
    unfold applyCommand
    split
    · rfl
    · split
      · rfl
      · split
        · rfl
        · split
          · rfl
          · split <;> rfl

/-- C1 amended witness: completing a pass from cursor 2 lands in AUTO with
cursor 0; the `"auto"` command leaves an arbitrary cursor (here 2) alone. -/
theorem cursor_reset_only_on_pass_completion_wit :
    (learnStep ⟨false, 2, zeroStore⟩ (some [5])).step = 0 ∧
    ((applyCommand ⟨false, 2, zeroStore⟩ "auto").newState).step = 2 :=
  ⟨cursor_reset_only_on_pass_completion.1 ⟨false, 2, zeroStore⟩ (some [5]) rfl rfl,
    cursor_reset_only_on_pass_completion.2 ⟨false, 2, zeroStore⟩ "auto"⟩

/-- Single-step form of the C5 finding: the debounce block of `loop()` can
never toggle.  The toggle needs `lastButtonState == HIGH && currentState == LOW`,
but on exactly that sample the first `if` has just reset `lastDebounceTime`
to the current `millis()`, so the elapsed-time guard `> debounceDelay` is
0 and fails; on every other sample the edge condition itself fails. -/
theorem debounceStep_never_toggles (st : DebounceState) (now : Nat) (b : Bool) :
    (debounceStep st now b).2 = false := by
  unfold debounceStep
  by_cases h : (b != st.lastButtonState) = true
  · simp [h, Nat.sub_self, debounceDelay]
  · have hb : b = st.lastButtonState := by
      cases b <;> cases hlb : st.lastButtonState <;> simp_all
    cases b with
    | true => simp [← hb]
    | false => simp [← hb, h]

/-- C5 (code bug): over every raw sample sequence whatsoever - in
particular one containing a single clean HIGH-to-LOW transition - the
debouncer emits zero toggle events, never the one the claim requires.
The `setup()` banner "Press button to enter Learning Mode" documents the
intent that the code fails to implement. -/
theorem debounce_never_toggles (st : DebounceState) (inputs : List (Nat × Bool)) :
    runDebounce st inputs = 0 := by
  induction inputs generalizing st with
  | nil => rfl
  | cons p rest ih =>
      obtain ⟨t, sample⟩ := p
      rw [runDebounce]
      rw [debounceStep_never_toggles st t sample] at *
      simp [debounceStep_never_toggles, ih]

/-- C3 (code bug): an invalid (NaN-temperature) reading sampled with the
hold-off elapsed still produces an `ac1/status` publish - the source
formats and publishes the reading unconditionally - while no replay is
triggered (every IEEE comparison against NaN is false, so both threshold
branches are skipped). -/
theorem invalid_reading_still_publishes_status :
    (autoControlMode zeroStore ⟨27, 23⟩ 0 6000 ⟨none, some 40⟩).events =
      [AcEvent.logPub tempLogStr, AcEvent.statusPub none (some 40)] ∧
    countTransmits (autoControlMode zeroStore ⟨27, 23⟩ 0 6000 ⟨none, some 40⟩) = 0 :=
  ⟨rfl, rfl⟩

/-- C4: for every valid reading processed by the policy (hold-off
elapsed), the status publish comes right after the reading log and before
any decision event, and the decision is exactly:
`temp >= TEMP_HIGH` replays the COOL slot (the slot this deployment uses
for "activate cooling"); else `temp <= TEMP_LOW` replays the FAN slot
(the slot this deployment uses for the deactivate role - the source logs
"Sending FAN signal." on that branch); else nothing. -/
theorem auto_decision_rule (store : Store) (cfg : ThresholdConfig)
    (lu now : Nat) (t h : ℚ) (hgate : ¬ (now - lu < 5000)) :
    autoControlMode store cfg lu now ⟨some t, some h⟩ =
      ⟨[AcEvent.logPub tempLogStr, AcEvent.statusPub (some t) (some h)] ++
        (if cfg.tempHigh ≤ t then
          [AcEvent.logPub "Sending COOL signal.",
            AcEvent.transmit (sendIRData store COOL_ADDR), AcEvent.logPub (sentLog COOL_ADDR)]
        else if t ≤ cfg.tempLow then
          [AcEvent.logPub "Sending FAN signal.",
            AcEvent.transmit (sendIRData store FAN_ADDR), AcEvent.logPub (sentLog FAN_ADDR)]
        else []), now⟩ := by
  unfold autoControlMode floatGe floatLe
  rw [if_neg hgate]
  by_cases h1 : cfg.tempHigh ≤ t
  · simp [h1]
  · by_cases h2 : t ≤ cfg.tempLow
    · simp [h1, h2]
    · simp [h1, h2]

/-- C4 witness (Scenario B): reading 28.0 °C against thresholds 27/23
publishes the status record and then replays the COOL slot. -/
theorem auto_decision_rule_wit :
    autoControlMode zeroStore ⟨27, 23⟩ 0 6000 ⟨some 28, some 40⟩ =
      ⟨[AcEvent.logPub tempLogStr, AcEvent.statusPub (some 28) (some 40)] ++
        (if (27 : ℚ) ≤ 28 then
          [AcEvent.logPub "Sending COOL signal.",
            AcEvent.transmit (sendIRData zeroStore COOL_ADDR), AcEvent.logPub (sentLog COOL_ADDR)]
        else if (28 : ℚ) ≤ 23 then
          [AcEvent.logPub "Sending FAN signal.",
            AcEvent.transmit (sendIRData zeroStore FAN_ADDR), AcEvent.logPub (sentLog FAN_ADDR)]
        else []), 6000⟩ :=
  auto_decision_rule zeroStore ⟨27, 23⟩ 0 6000 28 40 (by norm_num)

/-- C7: from LEARN with cursor 0, three consecutive accepted captures are
stored to COOL, FAN, OFF in that order, and the third one switches the
mode to AUTO with the cursor reset to 0 and all three slots populated with
their captures (hypotheses: each capture fits its 400-byte slot region,
i.e. at most 199 durations, each a 16-bit value). -/
theorem learning_sequence_order (s : Store) (c1 c2 c3 : List Nat)
    (h1 : c1.length ≤ 199) (h2 : c2.length ≤ 199) (h3 : c3.length ≤ 199)
    (hv1 : ∀ v ∈ c1, v < 65536) (hv2 : ∀ v ∈ c2, v < 65536)
    (hv3 : ∀ v ∈ c3, v < 65536) :
    (learnStep (learnStep (learnStep ⟨false, 0, s⟩ (some c1)) (some c2)) (some c3)).mode
      = true ∧
    (learnStep (learnStep (learnStep ⟨false, 0, s⟩ (some c1)) (some c2)) (some c3)).step
      = 0 ∧
    readSignal (learnStep (learnStep (learnStep ⟨false, 0, s⟩ (some c1)) (some c2))
      (some c3)).store COOL_ADDR = c1 ∧
    readSignal (learnStep (learnStep (learnStep ⟨false, 0, s⟩ (some c1)) (some c2))
      (some c3)).store FAN_ADDR = c2 ∧
    readSignal (learnStep (learnStep (learnStep ⟨false, 0, s⟩ (some c1)) (some c2))
      (some c3)).store OFF_ADDR = c3 := by
  have hstore : (learnStep (learnStep (learnStep ⟨false, 0, s⟩ (some c1)) (some c2))
      (some c3)).store =
      saveIRData (saveIRData (saveIRData s COOL_ADDR c1) FAN_ADDR c2) OFF_ADDR c3 := rfl
  have hC : COOL_ADDR = 0 := rfl
  have hF : FAN_ADDR = 400 := rfl
  have hO : OFF_ADDR = 800 := rfl
  have hE : EEPROM_SIZE = 1200 := rfl
  have hlen2 : readU16 (saveIRData (saveIRData s COOL_ADDR c1) FAN_ADDR c2) FAN_ADDR
      = c2.length := saveIRData_len _ _ _ (by omega) (by omega)
  have hlen1 : readU16 (saveIRData s COOL_ADDR c1) COOL_ADDR = c1.length :=
    saveIRData_len _ _ _ (by omega) (by omega)
  refine ⟨rfl, rfl, ?_, ?_, ?_⟩
  · rw [hstore]
    have e1 : readSignal (saveIRData (saveIRData (saveIRData s COOL_ADDR c1) FAN_ADDR c2)
        OFF_ADDR c3) COOL_ADDR = readSignal (saveIRData s COOL_ADDR c1) COOL_ADDR := by
      apply readSignal_agree _ _ _ 400
      · intro x hx
        rw [saveIRData_frame _ _ _ _ (by omega) (Or.inl (by omega)),
          saveIRData_frame _ _ _ _ (by omega) (Or.inl (by omega))]
      · rw [hlen1]
        omega
    rw [e1]
    exact saveIRData_readback _ _ _ (by omega) hv1
  · rw [hstore]
    have e2 : readSignal (saveIRData (saveIRData (saveIRData s COOL_ADDR c1) FAN_ADDR c2)
        OFF_ADDR c3) FAN_ADDR =
        readSignal (saveIRData (saveIRData s COOL_ADDR c1) FAN_ADDR c2) FAN_ADDR := by
      apply readSignal_agree _ _ _ 800
      · intro x hx
        rw [saveIRData_frame _ _ _ _ (by omega) (Or.inl (by omega))]
      · rw [hlen2]
        omega
    rw [e2]
    exact saveIRData_readback _ _ _ (by omega) hv2
  · rw [hstore]
    exact saveIRData_readback _ _ _ (by omega) hv3

/-- C7 witness (Scenario C): three concrete captures starting from a
zeroed store land in AUTO, cursor 0, with all three slots populated. -/
theorem learning_sequence_order_wit :
    (learnStep (learnStep (learnStep ⟨false, 0, zeroStore⟩ (some [9000, 4500, 560]))
      (some [100, 200])) (some [300])).mode = true ∧
    (learnStep (learnStep (learnStep ⟨false, 0, zeroStore⟩ (some [9000, 4500, 560]))
      (some [100, 200])) (some [300])).step = 0 ∧
    readSignal (learnStep (learnStep (learnStep ⟨false, 0, zeroStore⟩ (some [9000, 4500, 560]))
      (some [100, 200])) (some [300])).store COOL_ADDR = [9000, 4500, 560] ∧
    readSignal (learnStep (learnStep (learnStep ⟨false, 0, zeroStore⟩ (some [9000, 4500, 560]))
      (some [100, 200])) (some [300])).store FAN_ADDR = [100, 200] ∧
    readSignal (learnStep (learnStep (learnStep ⟨false, 0, zeroStore⟩ (some [9000, 4500, 560]))
      (some [100, 200])) (some [300])).store OFF_ADDR = [300] :=
  learning_sequence_order zeroStore [9000, 4500, 560] [100, 200] [300]
    (by decide) (by decide) (by decide) (by decide) (by decide) (by decide)

/-- C9: for every configuration with `tempHigh > tempLow` and every
reading, at most one of the two threshold replays fires per executed
interval, and a valid temperature strictly inside the band fires
neither. -/
theorem threshold_exclusivity (store : Store) (cfg : ThresholdConfig)
    (lu now : Nat) (r : SensorReading) (_hcfg : cfg.tempLow < cfg.tempHigh) :
    countTransmits (autoControlMode store cfg lu now r) ≤ 1 ∧
    (∀ t : ℚ, r.temp = some t → cfg.tempLow < t → t < cfg.tempHigh →
      countTransmits (autoControlMode store cfg lu now r) = 0) := by
  constructor
  · unfold autoControlMode countTransmits
    split
    · simp
    · split
      · simp [isTransmitEvent]
      · split
        · simp [isTransmitEvent]
        · simp [isTransmitEvent]
  · intro t ht hlow hhigh
    have hge : floatGe r.temp cfg.tempHigh = false := by
      rw [ht]
      simp only [floatGe, decide_eq_false_iff_not]
      exact not_le.mpr hhigh
    have hle : floatLe r.temp cfg.tempLow = false := by
      rw [ht]
      simp only [floatLe, decide_eq_false_iff_not]
      exact not_le.mpr hlow
    unfold autoControlMode countTransmits
    split
    · simp
    · rw [hge, hle]
      simp [isTransmitEvent]

/-- C9 witness: thresholds 27/23 and an in-band reading of 25 trigger no
replay at all (and a fortiori at most one). -/
theorem threshold_exclusivity_wit :
    countTransmits (autoControlMode zeroStore ⟨27, 23⟩ 0 6000 ⟨some 25, some 40⟩) ≤ 1 ∧
    countTransmits (autoControlMode zeroStore ⟨27, 23⟩ 0 6000 ⟨some 25, some 40⟩) = 0 :=
  ⟨(threshold_exclusivity zeroStore ⟨27, 23⟩ 0 6000 ⟨some 25, some 40⟩ (by norm_num)).1,
    (threshold_exclusivity zeroStore ⟨27, 23⟩ 0 6000 ⟨some 25, some 40⟩ (by norm_num)).2
      25 rfl (by norm_num) (by norm_num)⟩

end SmartAC
